import Mathlib

/-
Verification of the GEE forest-agreement scripts
(src/Geodata_script/GEE_forest_agreement_GEODATA_v1.0.js and
 src/ROI_script/GEE_forest_agreement_ROI_v1.0.js).

A raster clipped to the working region is modelled as a total function on a
finite h × w pixel grid.  Earth Engine image operations used by the scripts
are embedded pixel-wise:
  * remap / unmask       (reclassifyImage, PART 3)
  * Reducer.sum          (forestAgreement, PART 6)
  * connectedPixelCount  (smallPatches, PART 6): the size of the 8-connected
    same-value component of a pixel, saturated at the maxSize argument
    (the script passes maxSize = 8; eightConnected defaults to true)
  * focalMode            (majorityClass, PART 6): mode of the square
    (2r+1) x (2r+1) neighbourhood, with a deterministic tie-break
  * where                (forestAgreementFiltered, PART 6)
together with the client-side logic: the geometry-type check (PART 1),
the UTM EPSG selection (PART 8/10), the dataset ranking (PART 9) and the
minimum-area filtering of the per-polygon assessment (PART 10).
-/

namespace GeeForestAgreement

/-! PART 0: user-defined constants of the scripts. -/

def TARGET_RESOLUTION : ℚ := 30

def SIEVE_THRESHOLD_PIXELS : ℕ := 6

def FOREST_HEIGHT_MIN : ℤ := 5

def AGREEMENT_RADIUS : ℕ := 1

/-! Raster model. -/

/-- A pixel position on an `h × w` grid. -/
abbrev Pix (h w : ℕ) := Fin h × Fin w

/-- A single-band raster with every pixel valid (unmasked). -/
abbrev Img (h w : ℕ) := Pix h w → ℤ

/-- A single-band raster that may have masked (nodata) pixels. -/
abbrev MaskedImg (h w : ℕ) := Pix h w → Option ℤ

/-! 8-connectivity and same-value components
(semantics of `ee.Image.connectedPixelCount`). -/

/-- Two distinct pixels are 8-adjacent iff both coordinates differ by at
most one. -/
def adj8 {h w : ℕ} (p q : Pix h w) : Prop :=
  p ≠ q ∧ Nat.dist p.1.val q.1.val ≤ 1 ∧ Nat.dist p.2.val q.2.val ≤ 1

instance {h w : ℕ} (p q : Pix h w) : Decidable (adj8 p q) := by
  unfold adj8; infer_instance

/-- The generating relation of a same-value component: 8-adjacent and equal
raster value. -/
def sameAdj {h w : ℕ} (img : Img h w) (p q : Pix h w) : Prop :=
  adj8 p q ∧ img p = img q

instance {h w : ℕ} (img : Img h w) (p q : Pix h w) :
    Decidable (sameAdj img p q) := by
  unfold sameAdj; infer_instance

/-- One expansion step of a component: add every pixel same-value-adjacent to
the current set. -/
def growStep {h w : ℕ} (img : Img h w) (s : Finset (Pix h w)) :
    Finset (Pix h w) :=
  s ∪ Finset.univ.filter (fun q => ∃ r ∈ s, sameAdj img r q)

/-- The same-value connected component of pixel `p`: expanding `{p}` `h*w`
times reaches the closure (proved in `mem_component_iff`). -/
def component {h w : ℕ} (img : Img h w) (p : Pix h w) : Finset (Pix h w) :=
  (growStep img)^[h * w] {p}

/-- `ee.Image.connectedPixelCount(maxSize)`: the size of the pixel's
same-value 8-connected component, saturated at `maxSize`. -/
def connectedPixelCount {h w : ℕ} (maxSize : ℕ) (img : Img h w)
    (p : Pix h w) : ℕ :=
  min (component img p).card maxSize

/-! `ee.Image.focalMode(radius, 'square', 'pixels')`. -/

/-- All pixels of the grid, row by row. -/
def gridPix (h w : ℕ) : List (Pix h w) :=
  (List.finRange h).flatMap (fun i => (List.finRange w).map (fun j => (i, j)))

/-- The raster values inside the square window of radius `r` around `p`
(window cells outside the grid do not exist). -/
def nbhdVals {h w : ℕ} (r : ℕ) (img : Img h w) (p : Pix h w) : List ℤ :=
  ((gridPix h w).filter
      (fun q => decide (Nat.dist p.1.val q.1.val ≤ r ∧
                        Nat.dist p.2.val q.2.val ≤ r))).map img

/-- Pick the better mode candidate: higher multiplicity wins, equal
multiplicity broken towards the smaller value (deterministic tie-break). -/
def modeBetter (l : List ℤ) (a b : ℤ) : ℤ :=
  if l.count a < l.count b ∨ (l.count b = l.count a ∧ b < a) then b else a

/-- Deterministic mode of a list of values. -/
def modeList (l : List ℤ) : ℤ :=
  l.foldl (modeBetter l) (l.headD 0)

/-- Modal value of the square neighbourhood of radius `r` around `p`. -/
def focalMode {h w : ℕ} (r : ℕ) (img : Img h w) (p : Pix h w) : ℤ :=
  modeList (nbhdVals r img p)

/-! PART 6 of the scripts: the agreement layer and the sieve filter. -/

/-- `ee.ImageCollection(reclassifiedList).reduce(ee.Reducer.sum())`:
pixel-wise sum of the reclassified binary masks. -/
def forestAgreement {h w : ℕ} (masks : List (Img h w)) (p : Pix h w) : ℤ :=
  (masks.map (fun m => m p)).sum

/-- `forestAgreement.connectedPixelCount(8).lt(SIEVE_THRESHOLD_PIXELS)`. -/
def smallPatches {h w : ℕ} (img : Img h w) (p : Pix h w) : Prop :=
  connectedPixelCount 8 img p < SIEVE_THRESHOLD_PIXELS

instance {h w : ℕ} (img : Img h w) (p : Pix h w) :
    Decidable (smallPatches img p) := by
  unfold smallPatches; infer_instance

/-- `forestAgreement.focalMode(AGREEMENT_RADIUS, 'square', 'pixels')`. -/
def majorityClass {h w : ℕ} (img : Img h w) (p : Pix h w) : ℤ :=
  focalMode AGREEMENT_RADIUS img p

/-- `forestAgreement.where(smallPatches, majorityClass)`: replace the pixel
where the test image is true, keep it otherwise. -/
def forestAgreementFiltered {h w : ℕ} (img : Img h w) (p : Pix h w) : ℤ :=
  if smallPatches img p then majorityClass img p else img p

/-! PART 3 of the scripts: binary forest / non-forest reclassification. -/

/-- Value-level semantics of `ee.Image.remap(from, to, defaultValue)`:
a value equal to the i-th entry of `from` maps to the i-th entry of `to`,
any other value maps to `defaultValue`. -/
def remapVal : List ℤ → List ℤ → ℤ → ℤ → ℤ
  | [], _, d, _ => d
  | _ :: _, [], d, _ => d
  | f :: fs, t :: ts, d, x => if x = f then t else remapVal fs ts d x

/-- `ee.Image.remap` on a maskable pixel: masked pixels stay masked. -/
def remap (vFrom vTo : List ℤ) (d : ℤ) (v : Option ℤ) : Option ℤ :=
  v.map (remapVal vFrom vTo d)

/-- `ee.Image.unmask(d)`: replace a masked pixel by `d`. -/
def unmask (d : ℤ) (v : Option ℤ) : ℤ :=
  v.getD d

/-- `reclassifyImage(image, classes)` of the scripts:
`image.remap(classes, ee.List.repeat(1, classes.length()), 0).unmask(0)`. -/
def reclassifyImage (classes : List ℤ) (v : Option ℤ) : ℤ :=
  unmask 0 (remap classes (List.replicate classes.length 1) 0 v)

/-! PART 9 of the scripts: forest-extent ranking across datasets. -/

/-- `ee.Number(1).add(fc.filter(ee.Filter.gt('Forest_pct_total', x)).size())`:
the rank of percentage `x`, computed against the full unsorted collection. -/
def rankOf (fc : List ℚ) (x : ℚ) : ℕ :=
  1 + (fc.filter (fun y => decide (x < y))).length

/-- Insert a value into a descending-sorted list (stable). -/
def insertDesc (x : ℚ) : List ℚ → List ℚ
  | [] => [x]
  | y :: ys => if y < x then x :: y :: ys else y :: insertDesc x ys

/-- `fc.sort('Forest_pct_total', false)`: sort descending. -/
def sortDesc : List ℚ → List ℚ
  | [] => []
  | x :: xs => insertDesc x (sortDesc xs)

/-- The `ranked` collection of the scripts: sort the percentages descending,
then attach to every entry `1 + |{y in fc : y > x}|` computed against the
unsorted collection `fc`. -/
def ranked (fc : List ℚ) : List (ℚ × ℕ) :=
  (sortDesc fc).map (fun x => (x, rankOf fc x))

/-! PART 10 of the GEODATA script: minimum-area filter and per-polygon
agreement assessment. -/

/-- A production polygon, reduced to the attributes the PART 10 pipeline
reads: its geometry area in m² and the zonal sum (m²) of pixel areas whose
agreement score lies in 6..9 as delivered by `reduceRegions`. -/
structure PolyFeature where
  area_m2 : ℚ
  sum6to9_m2 : ℚ
deriving DecidableEq

/-- `area_ha` attribute set by `addAreaAndCheck`. -/
def area_ha (f : PolyFeature) : ℚ :=
  f.area_m2 / 10000

/-- `pixelArea_m2 = TARGET_RESOLUTION * TARGET_RESOLUTION`. -/
def pixelArea_m2 : ℚ :=
  TARGET_RESOLUTION * TARGET_RESOLUTION

/-- `minPixels = 0.5 * 10000 / pixelArea_m2`: pixels that equal 0.5 ha. -/
def minPixels : ℚ :=
  1 / 2 * 10000 / pixelArea_m2

/-- `approxPixels = area_m2 / pixelArea_m2`. -/
def approxPixels (f : PolyFeature) : ℚ :=
  f.area_m2 / pixelArea_m2

/-- `isBelow = approxPixels.lt(minPixels).or(area_ha.lt(0.5))`. -/
def isBelow (f : PolyFeature) : Prop :=
  approxPixels f < minPixels ∨ area_ha f < 1 / 2

instance (f : PolyFeature) : Decidable (isBelow f) := by
  unfold isBelow; infer_instance

/-- `area_check` attribute set by `addAreaAndCheck`. -/
def area_check (f : PolyFeature) : String :=
  if isBelow f then "below 0.5ha" else ""

/-- `passed = shp_with_area.filter(ee.Filter.neq('area_check', 'below 0.5ha'))`. -/
def passed (fc : List PolyFeature) : List PolyFeature :=
  fc.filter (fun f => decide (area_check f ≠ "below 0.5ha"))

/-- The `forestagree` percentage computed by `withPercent`:
`If(poly_area_m2.gt(0), sum.max(0).divide(poly_area_m2).multiply(100), 0)`. -/
def forestagreePct (f : PolyFeature) : ℚ :=
  if 0 < f.area_m2 then max f.sum6to9_m2 0 / f.area_m2 * 100 else 0

/-- `withPercent`: attach the computed percentage to every passed polygon.
An entry of the output table is a polygon together with its `forestagree`
attribute (`none` models a null value). -/
def withPercent (fc : List PolyFeature) : List (PolyFeature × Option ℚ) :=
  (passed fc).map (fun f => (f, some (forestagreePct f)))

/-- `below`: the flagged polygons, with `forestagree` set to null. -/
def belowFC (fc : List PolyFeature) : List (PolyFeature × Option ℚ) :=
  (fc.filter (fun f => decide (area_check f = "below 0.5ha"))).map
    (fun f => (f, none))

/-- `final = withPercent.merge(below)`: the exported table. -/
def finalTable (fc : List PolyFeature) : List (PolyFeature × Option ℚ) :=
  withPercent fc ++ belowFC fc

/-! PART 8 / PART 10 of the scripts: best-fit UTM EPSG code. -/

/-- `utmZone = lon.add(180).divide(6).floor().add(1)`. -/
def utmZone (lon : ℚ) : ℤ :=
  ⌊(lon + 180) / 6⌋ + 1

/-- `ee.Number.format('%02d')`: decimal rendering zero-padded to width 2. -/
def format02d (n : ℤ) : String :=
  if 0 ≤ n ∧ n < 10 then "0" ++ toString n else toString n

/-- `getUTMEPSG(geometry)` of the scripts, taking the centroid longitude and
latitude as inputs: `EPSG:326` + zone when `lat.gt(0)`, else `EPSG:327` +
zone. -/
def getUTMEPSG (lon lat : ℚ) : String :=
  if 0 < lat then "EPSG:326" ++ format02d (utmZone lon)
  else "EPSG:327" ++ format02d (utmZone lon)

/-! PART 1 of the GEODATA script: geodata-type consistency check. -/

/-- The error message thrown on a geometry-type mismatch. -/
def mismatchMsg (declared actual : String) : String :=
  "ERROR: GEODATA_TYPE does not match the shapefile geometry.\nSelected: "
    ++ declared ++ ", Actual: " ++ actual

/-- The PART 1 check: compare `GEODATA_TYPE` with the geometry type of
`shp_data.first()` — only the first feature of the collection is read. -/
def checkGeodataType (declared : String) (featureTypes : List String) :
    Except String Unit :=
  match featureTypes.head? with
  | none => Except.error "empty collection"
  | some actual =>
      if actual ≠ declared then Except.error (mismatchMsg declared actual)
      else Except.ok ()

/-- The script run: the type check happens first; all processing (clustering,
reclassification, agreement, exports — abstracted as `processResult`) is
reached only when the check passes. -/
def runScript {α : Type} (declared : String) (featureTypes : List String)
    (processResult : α) : Except String α :=
  match checkGeodataType declared featureTypes with
  | Except.error e => Except.error e
  | Except.ok _ => Except.ok processResult

/-! Concrete rasters used as witnesses. -/

/-- A constant 2 × 3 agreement raster (single component of size 6). -/
def constImg23 : Img 2 3 :=
  fun _ => 4

/-! Helper lemmas: the fuelled expansion `component` computes exactly the
reflexive-transitive closure of `sameAdj`. -/

theorem mem_growStep {h w : ℕ} (img : Img h w) (s : Finset (Pix h w))
    (q : Pix h w) :
    q ∈ growStep img s ↔ q ∈ s ∨ ∃ r ∈ s, sameAdj img r q := by
  simp [growStep]

theorem subset_growStep {h w : ℕ} (img : Img h w) (s : Finset (Pix h w)) :
    s ⊆ growStep img s :=
  Finset.subset_union_left

theorem growStep_sound {h w : ℕ} (img : Img h w) :
    ∀ (n : ℕ) (p q : Pix h w), q ∈ (growStep img)^[n] {p} →
      Relation.ReflTransGen (sameAdj img) p q := by
  intro n
  induction n with
  | zero =>
      intro p q hq
      simp only [Function.iterate_zero, id_eq, Finset.mem_singleton] at hq
      exact hq ▸ Relation.ReflTransGen.refl
  | succ n ih =>
      intro p q hq
      rw [Function.iterate_succ_apply'] at hq
      rcases (mem_growStep img _ q).1 hq with h1 | ⟨r, hr, hrq⟩
      · exact ih p q h1
      · exact (ih p r hr).tail hrq

theorem growStep_closed {h w : ℕ} (img : Img h w) {s : Finset (Pix h w)}
    (hfix : growStep img s = s) {r q : Pix h w} (hr : r ∈ s)
    (hpath : Relation.ReflTransGen (sameAdj img) r q) : q ∈ s := by
  induction hpath with
  | refl => exact hr
  | tail _ hbq ih =>
      have hq : _ ∈ growStep img s := (mem_growStep img s _).2 (Or.inr ⟨_, ih, hbq⟩)
      rwa [hfix] at hq

theorem iterate_growStep_fix_or_card {h w : ℕ} (img : Img h w)
    (s : Finset (Pix h w)) :
    ∀ n : ℕ, (growStep img)^[n + 1] s = (growStep img)^[n] s ∨
      s.card + n ≤ ((growStep img)^[n] s).card := by
  intro n
  induction n with
  | zero => right; simp
  | succ n ih =>
      by_cases heq : (growStep img)^[n + 1] s = (growStep img)^[n] s
      · left
        rw [Function.iterate_succ_apply' (growStep img) (n + 1) s, heq]
        rw [Function.iterate_succ_apply'] at heq
        exact heq
      · rcases ih with hfix | hcard
        · exact absurd hfix heq
        · right
          have hsub : (growStep img)^[n] s ⊆ (growStep img)^[n + 1] s := by
            rw [Function.iterate_succ_apply']
            exact subset_growStep img _
          have hlt : ((growStep img)^[n] s).card < ((growStep img)^[n + 1] s).card :=
            Finset.card_lt_card (Finset.ssubset_iff_subset_ne.2 ⟨hsub, fun hh => heq hh.symm⟩)
          omega

theorem growStep_component_fixed {h w : ℕ} (img : Img h w) (p : Pix h w) :
    growStep img (component img p) = component img p := by
  rcases iterate_growStep_fix_or_card img {p} (h * w) with hfix | hcard
  · rw [Function.iterate_succ_apply'] at hfix
    exact hfix
  · exfalso
    have h2 : ((growStep img)^[h * w] {p}).card ≤ Finset.univ.card :=
      Finset.card_le_univ _
    have h3 : (Finset.univ : Finset (Pix h w)).card = h * w := by
      simp [Finset.card_univ]
    simp only [Finset.card_singleton] at hcard
    omega

theorem self_mem_component {h w : ℕ} (img : Img h w) (p : Pix h w) :
    p ∈ component img p := by
  have hgen : ∀ n : ℕ, ({p} : Finset (Pix h w)) ⊆ (growStep img)^[n] {p} := by
    intro n
    induction n with
    | zero => simp
    | succ n ih =>
        rw [Function.iterate_succ_apply']
        exact ih.trans (subset_growStep img _)
  exact hgen (h * w) (Finset.mem_singleton_self p)

theorem mem_component_iff {h w : ℕ} (img : Img h w) (p q : Pix h w) :
    q ∈ component img p ↔ Relation.ReflTransGen (sameAdj img) p q := by
  constructor
  · exact growStep_sound img (h * w) p q
  · intro hpath
    exact growStep_closed img (growStep_component_fixed img p)
      (self_mem_component img p) hpath

theorem connectedPixelCount_lt_threshold {h w : ℕ} (img : Img h w)
    (p : Pix h w) :
    (connectedPixelCount 8 img p < SIEVE_THRESHOLD_PIXELS) ↔
      ((component img p).card < SIEVE_THRESHOLD_PIXELS) := by
  unfold connectedPixelCount SIEVE_THRESHOLD_PIXELS
  omega

/-- Claim C1: the sieve filter computes, for every pixel of the agreement
raster, the size of its 8-connected same-value component (membership in the
component is exactly reachability by chains of 8-adjacent equal-valued
pixels); every pixel whose component size is strictly below
`SIEVE_THRESHOLD_PIXELS` is replaced by the modal value of its square
3 × 3 neighbourhood (`AGREEMENT_RADIUS = 1`), and every other pixel keeps
its original agreement score. -/
theorem C1_sieveFilter {h w : ℕ} (img : Img h w) (p : Pix h w) :
    (∀ q, q ∈ component img p ↔ Relation.ReflTransGen (sameAdj img) p q) ∧
    forestAgreementFiltered img p =
      if (component img p).card < SIEVE_THRESHOLD_PIXELS then
        focalMode AGREEMENT_RADIUS img p
      else img p := by
  refine ⟨fun q => mem_component_iff img p q, ?_⟩
  unfold forestAgreementFiltered majorityClass
  exact if_congr (connectedPixelCount_lt_threshold img p) rfl rfl

/-- Claim C8: when every same-value connected component of the input
agreement raster already has at least `SIEVE_THRESHOLD_PIXELS` pixels, the
sieve filter is the identity: the filtered raster equals the input pixel
for pixel. -/
theorem C8_sieve_fixed_point {h w : ℕ} (img : Img h w)
    (hbig : ∀ p : Pix h w, SIEVE_THRESHOLD_PIXELS ≤ (component img p).card) :
    ∀ p : Pix h w, forestAgreementFiltered img p = img p := by
  intro p
  unfold forestAgreementFiltered
  rw [if_neg]
  intro hsmall
  have hp := hbig p
  have hlt := (connectedPixelCount_lt_threshold img p).1 hsmall
  omega

/-- Witness for C8 on a concrete raster: the constant 2 × 3 raster has a
single component of size 6 ≥ 6 and the sieve filter leaves it unchanged. -/
theorem C8_witness :
    (∀ p : Pix 2 3, SIEVE_THRESHOLD_PIXELS ≤ (component constImg23 p).card) ∧
    (∀ p : Pix 2 3, forestAgreementFiltered constImg23 p = constImg23 p) :=
  ⟨by decide, C8_sieve_fixed_point constImg23 (by decide)⟩

theorem remapVal_replicate_one (classes : List ℤ) (x : ℤ) :
    remapVal classes (List.replicate classes.length 1) 0 x =
      if x ∈ classes then 1 else 0 := by
  induction classes with
  | nil => simp [remapVal]
  | cons c cs ih =>
      rw [List.length_cons, List.replicate_succ]
      show (if x = c then 1 else remapVal cs (List.replicate cs.length 1) 0 x) = _
      by_cases hx : x = c
      · simp [hx]
      · rw [if_neg hx, ih]
        simp [List.mem_cons, hx]

theorem reclassifyImage_eval (classes : List ℤ) (v : Option ℤ) :
    reclassifyImage classes v =
      match v with
      | none => 0
      | some x => if x ∈ classes then 1 else 0 := by
  cases v with
  | none => rfl
  | some x =>
      simp only [reclassifyImage, remap, unmask, Option.map_some',
        Option.getD_some, remapVal_replicate_one]

/-- Claim C2: `reclassifyImage` produces only the values 0 and 1: a pixel
whose input value is in the class list maps to 1, every other pixel maps
to 0, and a previously masked (nodata) pixel also maps to 0, whatever the
class list is. -/
theorem C2_reclassify (classes : List ℤ) (v : Option ℤ) :
    (reclassifyImage classes v = 0 ∨ reclassifyImage classes v = 1) ∧
    (∀ x : ℤ, v = some x → x ∈ classes → reclassifyImage classes v = 1) ∧
    (∀ x : ℤ, v = some x → x ∉ classes → reclassifyImage classes v = 0) ∧
    (v = none → reclassifyImage classes v = 0) := by
  rw [reclassifyImage_eval]
  refine ⟨?_, ?_, ?_, ?_⟩
  · cases v with
    | none => exact Or.inl rfl
    | some x =>
        by_cases hx : x ∈ classes
        · exact Or.inr (by simp [hx])
        · exact Or.inl (by simp [hx])
  · intro x hv hx
    subst hv
    simp [hx]
  · intro x hv hx
    subst hv
    simp [hx]
  · intro hv
    subst hv
    rfl

/-- Witness for C2 at concrete inputs: the GLC-FCS30D class list. -/
theorem C2_witness :
    reclassifyImage [51, 52, 61] (some 52) = 1 ∧
    reclassifyImage [51, 52, 61] (some 7) = 0 ∧
    reclassifyImage [51, 52, 61] none = 0 :=
  ⟨(C2_reclassify [51, 52, 61] (some 52)).2.1 52 rfl (by decide),
   (C2_reclassify [51, 52, 61] (some 7)).2.2.1 7 rfl (by decide),
   (C2_reclassify [51, 52, 61] none).2.2.2 rfl⟩

theorem sum_bounds_of_binary (l : List ℤ) (hb : ∀ x ∈ l, x = 0 ∨ x = 1) :
    0 ≤ l.sum ∧ l.sum ≤ l.length := by
  induction l with
  | nil => simp
  | cons a as ih =>
      have ha := hb a (List.mem_cons_self a as)
      have ⟨h1, h2⟩ := ih (fun x hx => hb x (List.mem_cons_of_mem a hx))
      rcases ha with ha | ha <;> subst ha <;> constructor <;>
        simp [List.sum_cons] <;> omega

theorem sum_of_all_ones (l : List ℤ) (h1 : ∀ x ∈ l, x = 1) :
    l.sum = l.length := by
  induction l with
  | nil => simp
  | cons a as ih =>
      have ha := h1 a (List.mem_cons_self a as)
      subst ha
      rw [List.sum_cons, ih (fun x hx => h1 x (List.mem_cons_of_mem _ hx))]
      simp
      omega

/-- Claim C3: the agreement layer is the pixel-wise sum of the 9 aligned
binary masks, so its value lies in [0, 9] at every pixel; when every mask
is 1 everywhere, the agreement equals 9 everywhere. -/
theorem C3_combine {h w : ℕ} (masks : List (Img h w))
    (hlen : masks.length = 9)
    (hbin : ∀ m ∈ masks, ∀ p : Pix h w, m p = 0 ∨ m p = 1) :
    (∀ p : Pix h w, 0 ≤ forestAgreement masks p ∧ forestAgreement masks p ≤ 9) ∧
    ((∀ m ∈ masks, ∀ p : Pix h w, m p = 1) →
      ∀ p : Pix h w, forestAgreement masks p = 9) := by
  constructor
  · intro p
    have hb : ∀ x ∈ masks.map (fun m => m p), x = 0 ∨ x = 1 := by
      intro x hx
      rcases List.mem_map.1 hx with ⟨m, hm, hmx⟩
      exact hmx ▸ hbin m hm p
    have := sum_bounds_of_binary (masks.map (fun m => m p)) hb
    unfold forestAgreement
    rw [List.length_map, hlen] at this
    exact_mod_cast this
  · intro hall p
    have h1 : ∀ x ∈ masks.map (fun m => m p), x = 1 := by
      intro x hx
      rcases List.mem_map.1 hx with ⟨m, hm, hmx⟩
      exact hmx ▸ hall m hm p
    unfold forestAgreement
    rw [sum_of_all_ones _ h1, List.length_map, hlen]
    rfl

/-- Witness for C3: nine all-ones masks on a 1 × 1 grid sum to 9 at the
single pixel of the grid. -/
theorem C3_witness :
    forestAgreement (List.replicate 9 (fun _ => (1 : ℤ)))
      ((0 : Fin 1), (0 : Fin 1)) = 9 :=
  (C3_combine (List.replicate 9 (fun _ => 1)) (by simp)
      (fun m hm p => Or.inr (by rw [List.eq_of_mem_replicate hm]))).2
    (fun m hm p => by rw [List.eq_of_mem_replicate hm])
    ((0 : Fin 1), (0 : Fin 1))

/-- Claim C4: every entry of the ranked table carries the rank
`1 + |{y in fc : y > x}|` computed against the full unsorted collection, so
equal percentages share the same rank; on [50, 50, 30] the two 50 entries
receive rank 1 and the 30 entry receives rank 3. -/
theorem C4_rank (fc : List ℚ) :
    (∀ e ∈ ranked fc,
        e.2 = 1 + (fc.filter (fun y => decide (e.1 < y))).length) ∧
    (∀ e1 ∈ ranked fc, ∀ e2 ∈ ranked fc, e1.1 = e2.1 → e1.2 = e2.2) ∧
    ranked [50, 50, 30] = [(50, 1), (50, 1), (30, 3)] := by
  have hmem : ∀ e ∈ ranked fc, e.2 = rankOf fc e.1 := by
    intro e he
    rcases List.mem_map.1 he with ⟨x, _, hx⟩
    rw [← hx]
  refine ⟨?_, ?_, ?_⟩
  · intro e he
    rw [hmem e he]
    rfl
  · intro e1 he1 e2 he2 hval
    rw [hmem e1 he1, hmem e2 he2, hval]
  · decide

/-- Witness for C4: rank 1 of the first 50-percent entry agrees with the
strictly-greater count over the unsorted list. -/
theorem C4_witness :
    ((50 : ℚ), 1) ∈ ranked [50, 50, 30] ∧
    (1 : ℕ) = 1 +
      (([50, 50, 30] : List ℚ).filter (fun y => decide ((50 : ℚ) < y))).length :=
  ⟨by decide, (C4_rank [50, 50, 30]).1 (50, 1) (by decide)⟩

theorem isBelow_iff_area_lt (f : PolyFeature) :
    isBelow f ↔ f.area_m2 < 5000 := by
  unfold isBelow approxPixels minPixels area_ha pixelArea_m2 TARGET_RESOLUTION
  constructor
  · rintro (hpx | hha)
    · rw [div_lt_div_iff₀ (by norm_num) (by norm_num)] at hpx
      linarith
    · rw [div_lt_iff₀ (by norm_num)] at hha
      linarith
  · intro hlt
    right
    rw [div_lt_iff₀ (by norm_num)]
    linarith

/-- Claim C5: a polygon with `area_ha < 0.5` or with fewer target-resolution
pixels than the 0.5 ha pixel equivalent is flagged `below 0.5ha`, is
excluded from the percentage computation (`passed`), and still appears in
the final table with a null `forestagree`; a polygon with `area_ha ≥ 0.51`
is not flagged and receives the computed percentage in the final table. -/
theorem C5_min_area (fc : List PolyFeature) (f : PolyFeature) (hmem : f ∈ fc) :
    (area_ha f < 1 / 2 ∨ approxPixels f < minPixels →
        area_check f = "below 0.5ha" ∧
        (f, (none : Option ℚ)) ∈ finalTable fc ∧
        f ∉ passed fc) ∧
    (51 / 100 ≤ area_ha f →
        area_check f = "" ∧
        (f, some (forestagreePct f)) ∈ finalTable fc) := by
  constructor
  · intro hsmall
    have hbel : isBelow f := by
      rcases hsmall with hha | hpx
      · exact Or.inr hha
      · exact Or.inl hpx
    have hchk : area_check f = "below 0.5ha" := by
      unfold area_check
      rw [if_pos hbel]
    refine ⟨hchk, ?_, ?_⟩
    · unfold finalTable belowFC
      refine List.mem_append_right _ ?_
      refine List.mem_map.2 ⟨f, ?_, rfl⟩
      refine List.mem_filter.2 ⟨hmem, ?_⟩
      simp [hchk]
    · intro hpass
      unfold passed at hpass
      have := (List.mem_filter.1 hpass).2
      simp [hchk] at this
  · intro hbig
    have harea : (5000 : ℚ) ≤ f.area_m2 := by
      unfold area_ha at hbig
      rw [le_div_iff₀ (by norm_num)] at hbig
      linarith
    have hnb : ¬ isBelow f := by
      rw [isBelow_iff_area_lt]
      linarith
    have hchk : area_check f = "" := by
      unfold area_check
      rw [if_neg hnb]
    refine ⟨hchk, ?_⟩
    unfold finalTable withPercent
    refine List.mem_append_left _ ?_
    refine List.mem_map.2 ⟨f, ?_, rfl⟩
    unfold passed
    refine List.mem_filter.2 ⟨hmem, ?_⟩
    simp [hchk]

/-- Witness for C5: a 0.49 ha polygon is flagged and lands in the table with
a null percentage; a 0.51 ha polygon gets a computed percentage. -/
theorem C5_witness :
    (area_check ⟨4900, 0⟩ = "below 0.5ha" ∧
      ((⟨4900, 0⟩ : PolyFeature), (none : Option ℚ)) ∈
        finalTable [⟨4900, 0⟩, ⟨5100, 900⟩] ∧
      (⟨4900, 0⟩ : PolyFeature) ∉ passed [⟨4900, 0⟩, ⟨5100, 900⟩]) ∧
    (area_check ⟨5100, 900⟩ = "" ∧
      ((⟨5100, 900⟩ : PolyFeature),
          some (forestagreePct ⟨5100, 900⟩)) ∈
        finalTable [⟨4900, 0⟩, ⟨5100, 900⟩]) :=
  ⟨(C5_min_area [⟨4900, 0⟩, ⟨5100, 900⟩] ⟨4900, 0⟩ (by decide)).1
      (Or.inl (by unfold area_ha; norm_num)),
   (C5_min_area [⟨4900, 0⟩, ⟨5100, 900⟩] ⟨5100, 900⟩ (by decide)).2
      (by unfold area_ha; norm_num)⟩

theorem utmZone_eq (lon : ℚ) (z : ℤ) (h1 : (z : ℚ) - 1 ≤ (lon + 180) / 6)
    (h2 : (lon + 180) / 6 < z) : utmZone lon = z := by
  unfold utmZone
  have hfl : ⌊(lon + 180) / 6⌋ = z - 1 := by
    rw [Int.floor_eq_iff]
    constructor
    · push_cast
      linarith
    · push_cast
      linarith
  rw [hfl]
  omega

/-- Claim C6: the UTM EPSG code is the hemisphere code (`EPSG:326` when the
centroid latitude is strictly positive, else `EPSG:327`) followed by the
two-digit zero-padded zone `floor((lon + 180) / 6) + 1`; centroid
(11, 52) yields EPSG:32632 and (11, -5) yields EPSG:32732. -/
theorem C6_utm :
    (∀ lon lat : ℚ, getUTMEPSG lon lat =
        (if 0 < lat then "EPSG:326" else "EPSG:327") ++
          format02d (⌊(lon + 180) / 6⌋ + 1)) ∧
    getUTMEPSG 11 52 = "EPSG:32632" ∧
    getUTMEPSG 11 (-5) = "EPSG:32732" := by
  have h32 : utmZone 11 = 32 := utmZone_eq 11 32 (by norm_num) (by norm_num)
  refine ⟨fun lon lat => ?_, ?_, ?_⟩
  · unfold getUTMEPSG utmZone
    by_cases hl : 0 < lat
    · rw [if_pos hl, if_pos hl]
    · rw [if_neg hl, if_neg hl]
  · unfold getUTMEPSG
    rw [h32]
    norm_num
    decide
  · unfold getUTMEPSG
    rw [h32]
    norm_num
    decide

/-- Counterexample to claim C7: the collection ["Polygon", "Point"] with
declared type "Polygon" contains a loaded feature ("Point") whose geometry
type mismatches the declared kind, yet the run succeeds and processing is
reached — only the first feature is ever checked. -/
theorem C7_counterexample :
    ("Point" : String) ∈ ["Polygon", "Point"] ∧
    ("Point" : String) ≠ "Polygon" ∧
    runScript "Polygon" ["Polygon", "Point"] (0 : ℕ) = Except.ok 0 :=
  ⟨by decide, by decide, rfl⟩

/-- Claim C7 as amended: if the geometry type of the FIRST feature of the
collection mismatches the declared `GEODATA_TYPE`, the run fails with the
mismatch error before any processing is reached; features beyond the first
are not checked. -/
theorem C7_first_feature_check {α : Type} (declared actual : String)
    (fts : List String) (hh : fts.head? = some actual)
    (hne : actual ≠ declared) (processResult : α) :
    runScript declared fts processResult =
      Except.error (mismatchMsg declared actual) := by
  simp [runScript, checkGeodataType, hh, hne]

/-- Witness for the amended C7: a single-point collection declared as
Polygon fails with the mismatch error. -/
theorem C7_witness :
    (["Point"] : List String).head? = some "Point" ∧
    ("Point" : String) ≠ "Polygon" ∧
    runScript "Polygon" ["Point"] (0 : ℕ) =
      Except.error (mismatchMsg "Polygon" "Point") :=
  ⟨rfl, by decide,
   C7_first_feature_check "Polygon" "Point" ["Point"] rfl (by decide) 0⟩

/-- Counterexample to claim C9: at centroid longitude 180 the computed zone
is 61, outside [1, 60] — `getUTMEPSG` performs no clamping and returns the
invalid UTM code EPSG:32661. -/
theorem C9_counterexample :
    utmZone 180 = 61 ∧ ¬ (utmZone 180 ≤ 60) ∧
    getUTMEPSG 180 1 = "EPSG:32661" := by
  have h61 : utmZone 180 = 61 := utmZone_eq 180 61 (by norm_num) (by norm_num)
  refine ⟨h61, by omega, ?_⟩
  unfold getUTMEPSG
  rw [h61]
  norm_num
  decide

/-- Claim C9 as amended: the zone is not clamped; for every centroid
longitude in [-180, 180) the computed zone does lie in [1, 60], but
longitude exactly 180 yields zone 61 and an invalid UTM EPSG code. -/
theorem C9_zone_range (lon : ℚ) (h1 : -180 ≤ lon) (h2 : lon < 180) :
    1 ≤ utmZone lon ∧ utmZone lon ≤ 60 := by
  unfold utmZone
  have hnonneg : (0 : ℤ) ≤ ⌊(lon + 180) / 6⌋ := by
    apply Int.floor_nonneg.2
    apply div_nonneg (by linarith) (by norm_num)
  have hlt : ⌊(lon + 180) / 6⌋ < 60 := by
    apply Int.floor_lt.2
    rw [div_lt_iff₀ (by norm_num)]
    push_cast
    linarith
  omega

/-- Witness for the amended C9: longitude 11 is in range and yields zone 32. -/
theorem C9_witness :
    (-180 ≤ (11 : ℚ)) ∧ ((11 : ℚ) < 180) ∧
    (1 ≤ utmZone 11 ∧ utmZone 11 ≤ 60) :=
  ⟨by norm_num, by norm_num, C9_zone_range 11 (by norm_num) (by norm_num)⟩

/-- Claim C10: the hemisphere test is strict — `EPSG:326` is chosen only
when the centroid latitude is strictly positive; at latitude exactly 0 or
below, the southern code `EPSG:327` + zone is returned.  At (11, 0) the
result is EPSG:32732. -/
theorem C10_equator_south (lon lat : ℚ) :
    (lat ≤ 0 → getUTMEPSG lon lat = "EPSG:327" ++ format02d (utmZone lon)) ∧
    (0 < lat → getUTMEPSG lon lat = "EPSG:326" ++ format02d (utmZone lon)) ∧
    (lon = 11 ∧ lat = 0 → getUTMEPSG lon lat = "EPSG:32732") := by
  refine ⟨fun hlat => ?_, fun hlat => ?_, fun hc => ?_⟩
  · unfold getUTMEPSG
    rw [if_neg (not_lt.2 hlat)]
  · unfold getUTMEPSG
    rw [if_pos hlat]
  · rcases hc with ⟨hlon, hlat⟩
    subst hlon
    subst hlat
    have h32 : utmZone 11 = 32 := utmZone_eq 11 32 (by norm_num) (by norm_num)
    unfold getUTMEPSG
    rw [h32]
    norm_num
    decide

/-- Witness for C10: at a centroid exactly on the equator the southern
hemisphere code is produced. -/
theorem C10_witness :
    getUTMEPSG 11 0 = "EPSG:327" ++ format02d (utmZone 11) :=
  (C10_equator_south 11 0).1 (by norm_num)

end GeeForestAgreement
